import Mathlib

/-!
# Verification of the StealthMed RWEye data pipeline

A shallow embedding of the two dashboard scripts of the repository
(`src/poc/app.py` and `src/app_v1.py`) together with theorems about the
loading, filtering, aggregation and drill-down behaviour they implement.

Tabular data is modelled as lists of structures.  A missing cell (pandas
`NaN`) is `Option.none`; numeric cells parsed with `pd.to_numeric(...,
errors="coerce")` are modelled as `Option ℚ` (resp. `Option ℤ` where the
source casts to `int`).  The pandas sorting calls (`sort_values`) are
modelled by a deterministic insertion sort on the sort key, and
`groupby` is modelled by first-occurrence deduplication of the group key
followed by a per-key sum (pandas drops rows whose group key contains a
null, and its summation treats nulls as zero; both behaviours are
reproduced below).
-/

namespace StealthMed

/-! ## Generic list kit: deterministic sort and group-by deduplication -/

/-- Insert `a` into `l` immediately before the first element `b` for which
`le a b` fails to hold, i.e. the usual insertion step of insertion sort. -/
def insertBy (le : α → α → Bool) (a : α) : List α → List α
  | [] => [a]
  | b :: t => if le a b = true then a :: b :: t else b :: insertBy le a t

/-- Deterministic insertion sort with respect to a boolean comparison. -/
def sortBy (le : α → α → Bool) : List α → List α
  | [] => []
  | a :: t => insertBy le a (sortBy le t)

/-- Keep the first occurrence of every key `k`, in first-occurrence order. -/
def dedupBy [DecidableEq β] (k : α → β) : List α → List α
  | [] => []
  | a :: t => a :: (dedupBy k t).filter (fun b => decide (k b ≠ k a))

theorem mem_insertBy (le : α → α → Bool) (a x : α) (l : List α) :
    x ∈ insertBy le a l ↔ x = a ∨ x ∈ l := by
  induction l with
  | nil => simp [insertBy]
  | cons b t ih =>
    by_cases h : le a b = true
    · simp [insertBy, h]
    · simp only [insertBy, if_neg h, List.mem_cons, ih]
      tauto

theorem perm_insertBy (le : α → α → Bool) (a : α) (l : List α) :
    List.Perm (insertBy le a l) (a :: l) := by
  induction l with
  | nil => exact List.Perm.refl _
  | cons b t ih =>
    by_cases h : le a b = true
    · rw [insertBy, if_pos h]
    · rw [insertBy, if_neg h]
      exact (ih.cons b).trans (List.Perm.swap a b t)

theorem perm_sortBy (le : α → α → Bool) (l : List α) :
    List.Perm (sortBy le l) l := by
  induction l with
  | nil => exact List.Perm.refl _
  | cons a t ih =>
    rw [sortBy]
    exact (perm_insertBy le a (sortBy le t)).trans (ih.cons a)

theorem mem_sortBy (le : α → α → Bool) (l : List α) (x : α) :
    x ∈ sortBy le l ↔ x ∈ l :=
  (perm_sortBy le l).mem_iff

theorem pairwise_insertBy (le : α → α → Bool)
    (htot : ∀ x y, le x y = true ∨ le y x = true)
    (htrans : ∀ x y z, le x y = true → le y z = true → le x z = true)
    (a : α) (l : List α) (h : l.Pairwise (fun x y => le x y = true)) :
    (insertBy le a l).Pairwise (fun x y => le x y = true) := by
  induction l with
  | nil => simp [insertBy]
  | cons b t ih =>
    rcases List.pairwise_cons.mp h with ⟨hb, ht⟩
    by_cases hab : le a b = true
    · rw [insertBy, if_pos hab]
      refine List.pairwise_cons.mpr ⟨?_, h⟩
      intro y hy
      rcases List.mem_cons.mp hy with rfl | hyt
      · exact hab
      · exact htrans a b y hab (hb y hyt)
    · rw [insertBy, if_neg hab]
      refine List.pairwise_cons.mpr ⟨?_, ih ht⟩
      intro y hy
      rcases (mem_insertBy le a y t).mp hy with hya | hyt
      · rw [hya]
        rcases htot a b with h1 | h1
        · exact absurd h1 hab
        · exact h1
      · exact hb y hyt

theorem pairwise_sortBy (le : α → α → Bool)
    (htot : ∀ x y, le x y = true ∨ le y x = true)
    (htrans : ∀ x y z, le x y = true → le y z = true → le x z = true)
    (l : List α) : (sortBy le l).Pairwise (fun x y => le x y = true) := by
  induction l with
  | nil => simp [sortBy]
  | cons a t ih =>
    rw [sortBy]
    exact pairwise_insertBy le htot htrans a (sortBy le t) ih

theorem dedupBy_subset [DecidableEq β] (k : α → β) (l : List α) :
    ∀ x ∈ dedupBy k l, x ∈ l := by
  induction l with
  | nil => intro x hx; simp [dedupBy] at hx
  | cons a t ih =>
    intro x hx
    rcases List.mem_cons.mp hx with rfl | hx
    · exact List.mem_cons_self _ _
    · exact List.mem_cons_of_mem a (ih x (List.mem_of_mem_filter hx))

theorem pairwise_dedupBy [DecidableEq β] (k : α → β) (l : List α) :
    (dedupBy k l).Pairwise (fun a b => k a ≠ k b) := by
  induction l with
  | nil => simp [dedupBy]
  | cons a t ih =>
    rw [dedupBy]
    refine List.pairwise_cons.mpr ⟨?_, ih.filter _⟩
    intro y hy
    have h2 := (List.mem_filter.mp hy).2
    have h3 : k y ≠ k a := of_decide_eq_true h2
    exact fun hka => h3 hka.symm

theorem dedupBy_covers [DecidableEq β] (k : α → β) (l : List α) :
    ∀ r ∈ l, ∃ g ∈ dedupBy k l, k g = k r := by
  induction l with
  | nil => intro r hr; simp at hr
  | cons a t ih =>
    intro r hr
    rcases List.mem_cons.mp hr with hra | hr
    · exact ⟨a, List.mem_cons_self _ _, by rw [hra]⟩
    · rcases ih r hr with ⟨g, hg, hk⟩
      by_cases hga : k g = k a
      · exact ⟨a, List.mem_cons_self _ _, by rw [← hga, hk]⟩
      · refine ⟨g, List.mem_cons_of_mem a ?_, hk⟩
        exact List.mem_filter.mpr ⟨hg, by simp [hga]⟩

theorem mem_dedupBy_id [DecidableEq α] (l : List α) (x : α) :
    x ∈ dedupBy id l ↔ x ∈ l := by
  induction l with
  | nil => simp [dedupBy]
  | cons a t ih =>
    constructor
    · exact dedupBy_subset id (a :: t) x
    · intro hx
      rw [dedupBy]
      rcases List.mem_cons.mp hx with rfl | hx
      · exact List.mem_cons_self _ _
      · by_cases hxa : x = a
        · exact hxa ▸ List.mem_cons_self _ _
        · exact List.mem_cons_of_mem a
            (List.mem_filter.mpr ⟨ih.mpr hx, by simp [hxa]⟩)

/-! ## Embedding of `src/poc/app.py` -/

/-- Whitespace in the sense of Python `str.strip`. -/
def pyWs (c : Char) : Bool :=
  decide (c.toNat = 32) || decide (c.toNat = 9) || decide (c.toNat = 10) ||
    decide (c.toNat = 13) || decide (c.toNat = 11) || decide (c.toNat = 12)

/-- Python `str.strip()`: remove leading and trailing whitespace. -/
def pyStrip (s : String) : String :=
  String.mk (((s.toList.dropWhile pyWs).reverse.dropWhile pyWs).reverse)

/-- Lexicographic comparison of code-point lists, as Python compares
strings. -/
def listLe : List Char → List Char → Bool
  | [], _ => true
  | _ :: _, [] => false
  | a :: as, b :: bs =>
    if a.toNat < b.toNat then true
    else if b.toNat < a.toNat then false
    else listLe as bs

/-- Strict code-point lexicographic comparison of char lists. -/
def listLt : List Char → List Char → Bool
  | [], [] => false
  | [], _ :: _ => true
  | _ :: _, [] => false
  | a :: as, b :: bs =>
    if a.toNat < b.toNat then true
    else if b.toNat < a.toNat then false
    else listLt as bs

/-- Python string comparison used by `sorted` (ascending). -/
def strLe (a b : String) : Bool := listLe a.toList b.toList

/-- Numeric value of a list of decimal digit characters. -/
def digitsVal (l : List Char) : Nat :=
  l.foldl (fun n c => n * 10 + (c.toNat - 48)) 0

/-- Lenient decimal parse modelling `pd.to_numeric(..., errors="coerce")`:
surrounding whitespace and an optional sign are accepted, a plain or
decimal-point numeral yields its rational value, and anything else
(including a missing cell) coerces to null rather than raising. -/
def parseRat (s : String) : Option ℚ :=
  let body := (pyStrip s).toList
  let signed : ℤ × List Char :=
    match body with
    | '-' :: r => (-1, r)
    | '+' :: r => (1, r)
    | _ => (1, body)
  let ip := signed.2.takeWhile Char.isDigit
  let rest := signed.2.dropWhile Char.isDigit
  match rest with
  | [] =>
    if ip.isEmpty then none
    else some (Rat.divInt (signed.1 * (digitsVal ip : ℤ)) 1)
  | '.' :: fp =>
    if fp.all Char.isDigit ∧ (ip ≠ [] ∨ fp ≠ []) then
      some (Rat.divInt
        (signed.1 * ((digitsVal ip : ℤ) * (10 : ℤ) ^ fp.length + (digitsVal fp : ℤ)))
        ((10 : ℤ) ^ fp.length))
    else none
  | _ => none

/-- `pd.to_numeric(column, errors="coerce")` applied to one raw cell. -/
def toNumQ (c : Option String) : Option ℚ := c.bind parseRat

/-- One cell after `astype(str).str.strip()` (app.py line 94): a pandas
null prints as the string "nan", any other cell is whitespace-trimmed. -/
def strS (c : Option String) : String :=
  match c with
  | none => "nan"
  | some s => pyStrip s

/-- Classification-level cell: stripped at line 94, then the empty string
and the "nan" placeholder are replaced by null at lines 103-105. -/
def lvlS (c : Option String) : Option String :=
  let s := strS c
  if s = "" ∨ s = "nan" then none else some s

/-- One raw row of `smr3.csv` as read by `pd.read_csv(..., dtype=str)`:
every cell is a string or null. -/
structure RawSmrRow where
  drug : Option String := none
  agegroup : Option String := none
  cui : Option String := none
  l1 : Option String := none
  l2 : Option String := none
  l3 : Option String := none
  l4 : Option String := none
  prescriptions : Option String := none
  pubs : Option String := none
  is_first : Option String := none
deriving DecidableEq, Repr

/-- A raw smr3 table; `hasIsFirst` records whether the optional
`is_first` column is present (app.py line 100). -/
structure RawSmrTable where
  rows : List RawSmrRow
  hasIsFirst : Bool
deriving DecidableEq, Repr

/-- A normalized smr3 row as produced by `load_smr`. -/
structure SmrRow where
  drug : String
  agegroup : String
  cui : String
  l1 : Option String
  l2 : Option String
  l3 : Option String
  l4 : Option String
  prescriptions : Option ℚ
  pubs : Option ℚ
deriving DecidableEq, Repr

/-- Per-row normalization of `load_smr` (app.py lines 92-105): string
columns stripped, numeric columns leniently parsed, level columns with
empty or "nan" content nulled. -/
def normSmrRow (r : RawSmrRow) : SmrRow :=
  { drug := strS r.drug
    agegroup := strS r.agegroup
    cui := strS r.cui
    l1 := lvlS r.l1
    l2 := lvlS r.l2
    l3 := lvlS r.l3
    l4 := lvlS r.l4
    prescriptions := toNumQ r.prescriptions
    pubs := toNumQ r.pubs }

/-- `load_smr` (app.py lines 87-107).  When the `is_first` column exists,
only rows whose coerced value equals 1 survive (lines 100-101); every
surviving row is normalized. -/
def load_smr (t : RawSmrTable) : List SmrRow :=
  (if t.hasIsFirst then
      t.rows.filter (fun r => decide (toNumQ r.is_first = some 1))
    else t.rows).map normSmrRow

/-- One raw row of `prr3.csv` as read with `dtype=str`. -/
structure RawPrrRow where
  drug : Option String := none
  cui : Option String := none
  agegroup : Option String := none
  pt : Option String := none
  prr : Option String := none
  ror : Option String := none
  ic : Option String := none
  ebgm : Option String := none
deriving DecidableEq, Repr

/-- A normalized prr3 row as produced by `load_prr`. -/
structure PrrRow where
  drug : String
  cui : String
  agegroup : String
  pt : String
  prr : Option ℚ
  ror : Option ℚ
  ic : Option ℚ
  ebgm : Option ℚ
deriving DecidableEq, Repr

/-- `load_prr` (app.py lines 109-119): string columns stripped, the four
disproportionality statistics leniently parsed. -/
def load_prr (rows : List RawPrrRow) : List PrrRow :=
  rows.map (fun r =>
    { drug := strS r.drug
      cui := strS r.cui
      agegroup := strS r.agegroup
      pt := strS r.pt
      prr := toNumQ r.prr
      ror := toNumQ r.ror
      ic := toNumQ r.ic
      ebgm := toNumQ r.ebgm })

/-- `opts` (app.py lines 158-160): drop nulls, deduplicate keeping first
occurrences, drop values that strip to the empty string, sort ascending
and put the "All" option in front. -/
def opts (s : List (Option String)) : List String :=
  "All" :: sortBy strLe
    ((dedupBy id (s.filterMap id)).filter (fun x => decide (pyStrip x ≠ "")))

/-- One cascading level filter (app.py lines 164, 167, 170, 173):
choosing "All" leaves the row-set unchanged, any other choice keeps the
rows whose level value equals it (a null never equals a choice). -/
def lvlFilter (get : SmrRow → Option String) (choice : String)
    (rows : List SmrRow) : List SmrRow :=
  if choice = "All" then rows
  else rows.filter (fun r => decide (get r = some choice))

/-- The `available_values` contract of one level's option list over one
(partially filtered) subset: it starts with the "All" option, its
remaining entries are sorted ascending and pairwise distinct, and they
are exactly the non-null values of the level that strip to something
non-empty and occur in a row of the subset. -/
def availSpec (sub : List SmrRow) (get : SmrRow → Option String) : Prop :=
  (opts (sub.map get)).head? = some "All"
  ∧ ((opts (sub.map get)).tail).Pairwise (fun a b => strLe a b = true)
  ∧ ((opts (sub.map get)).tail).Nodup
  ∧ (∀ x, x ∈ opts (sub.map get) ↔
      (x = "All" ∨ (pyStrip x ≠ "" ∧ ∃ r ∈ sub, get r = some x)))

/-- The chained L1-L4 selection (app.py lines 163-173) producing
`smr_filtered`. -/
def smrFiltered (rows : List SmrRow) (c1 c2 c3 c4 : String) : List SmrRow :=
  lvlFilter SmrRow.l4 c4
    (lvlFilter SmrRow.l3 c3
      (lvlFilter SmrRow.l2 c2
        (lvlFilter SmrRow.l1 c1 rows)))

/-- `age_order` (app.py line 150). -/
def age_order : List String := ["Total", "0-2", "3-10", "11-17"]

/-- `age_available` (app.py line 151): the orderings of `age_order` that
occur in the data, falling back to the whole of `age_order` when none
occurs. -/
def age_available (rows : List SmrRow) : List String :=
  let avail := age_order.filter (fun a => decide (a ∈ rows.map SmrRow.agegroup))
  if avail.isEmpty then age_order else avail

/-- Comes-before relation of `sort_values(..., ascending=asc,
na_position="last")` on an optional numeric sort key. -/
def optBefore (asc : Bool) (x y : Option ℚ) : Bool :=
  match x, y with
  | none, none => true
  | none, some _ => false
  | some _, none => true
  | some a, some b => if asc then decide (a ≤ b) else decide (b ≤ a)

/-- The sort key of the results table (app.py lines 197, 209): the pubs
column when sorting by publications, else the prescriptions column. -/
def smrMetric (pubsMetric : Bool) (r : SmrRow) : Option ℚ :=
  if pubsMetric then r.pubs else r.prescriptions

/-- The results-table sort (app.py lines 212-216): ascending is the
negation of the descending checkbox, nulls are placed last.  Pandas
`sort_values` with its default kind guarantees only the key order of
the result; the relative order of rows with equal sort keys is
implementation-defined (the default quicksort is not stable).  The
embedding therefore commits to one concrete deterministic order via
insertion sort, and no theorem below asserts anything about the tie
order of this sort. -/
def sortSmr (pubsMetric desc : Bool) (rows : List SmrRow) : List SmrRow :=
  sortBy (fun a b =>
    optBefore (!desc) (smrMetric pubsMetric a) (smrMetric pubsMetric b)) rows

/-- The displayed results row-set (app.py lines 191-216): hierarchy
filters, then the exact age-group equality filter, then the optional
drug multiselect, then the metric sort. -/
def resultsRows (rows : List SmrRow) (c1 c2 c3 c4 age : String)
    (picks : List String) (pubsMetric desc : Bool) : List SmrRow :=
  let f := smrFiltered rows c1 c2 c3 c4
  let g := f.filter (fun r => decide (r.agegroup = age))
  let h := if picks.isEmpty then g
    else g.filter (fun r => decide (r.drug ∈ picks))
  sortSmr pubsMetric desc h

/-- Lower-casing of one ASCII character. -/
def pyLower (c : Char) : Char :=
  if 65 ≤ c.toNat ∧ c.toNat ≤ 90 then Char.ofNat (c.toNat + 32) else c

/-- Python `str.casefold`, modelled as lower-casing (the data is ASCII). -/
def casefold (s : String) : String := String.mk (s.toList.map pyLower)

/-- The cui lookup of the ADE drill-down (app.py lines 253-261): the
first cui string stored for the selected drug, if any row matches. -/
def adeCui (smr : List SmrRow) (drug : String) : Option String :=
  ((smr.filter (fun r => decide (r.drug = drug))).map SmrRow.cui).head?

/-- Python truthiness of the optional cui string (app.py lines 261-274):
`None` and the empty string are falsy. -/
def truthy : Option String → Bool
  | none => false
  | some s => decide (s ≠ "")

/-- The ADE drill-down table (app.py lines 251-283): filter `prr` by the
stored cui string when it is truthy, otherwise by case-insensitive drug
name; restrict to the selected age group unless it is "Total"; sort by
the prr statistic descending with nulls last. -/
def adeDf (smr : List SmrRow) (prr : List PrrRow) (drug age : String) :
    List PrrRow :=
  let c := adeCui smr drug
  let base :=
    if truthy c then prr.filter (fun p => decide (some p.cui = c))
    else prr.filter (fun p => decide (casefold p.drug = casefold drug))
  let restricted :=
    if age = "Total" then base
    else base.filter (fun p => decide (p.agegroup = age))
  sortBy (fun a b => optBefore false a.prr b.prr) restricted

/-- Failure signalled when the input cannot be parsed as tabular data. -/
structure LoadError where
  msg : String
deriving DecidableEq, Repr

/-- `load_smr` applied to the outcome of `pd.read_csv`, which either
yields a whole table or raises: a raised parse error propagates out of
the loader untouched (app.py lines 88-89). -/
def load_smr_result (input : Except LoadError RawSmrTable) :
    Except LoadError (List SmrRow) :=
  input.map load_smr

/-- `load_or_upload` (app.py lines 121-133) for the smr table: a loader
failure on the repo file is caught and the uploaded file is tried with
the same loader (whose failure propagates); with nothing to load the
result is the empty table. -/
def load_or_upload_smr (fromPath : Option (Except LoadError RawSmrTable))
    (uploaded : Option (Except LoadError RawSmrTable)) :
    Except LoadError (List SmrRow) :=
  match fromPath with
  | some (Except.ok t) => Except.ok (load_smr t)
  | _ =>
    match uploaded with
    | some u => load_smr_result u
    | none => Except.ok []

/-! ## Embedding of `src/app_v1.py` -/

/-- One raw row of `pedpubs_atc_merged.csv` (read by plain `read_csv`):
string cells are optional strings, the publication count is an optional
integer. -/
structure PubsRow where
  cui : Option String := none
  rxnorm_tty : Option String := none
  rxnorm_name : Option String := none
  L1_code : Option String := none
  L1_name : Option String := none
  L2_code : Option String := none
  L2_name : Option String := none
  L3_code : Option String := none
  L3_name : Option String := none
  L4_code : Option String := none
  L4_name : Option String := none
  unique_pub_count : Option ℤ := none
deriving DecidableEq, Repr

/-- The raw publications table; the flags record which of the two
optional columns exist (app_v1.py lines 46-49 and 64-66). -/
structure PubsTable where
  rows : List PubsRow
  hasRxnormName : Bool
  hasPubCount : Bool
deriving DecidableEq, Repr

/-- One raw row of `rx_vol_joined_to_umls.csv`. -/
structure RxRow where
  cui : Option String := none
  L1_code : Option String := none
  L1_name : Option String := none
  L2_code : Option String := none
  L2_name : Option String := none
  L3_code : Option String := none
  L3_name : Option String := none
  L4_code : Option String := none
  L4_name : Option String := none
  vol : Option ℤ := none
deriving DecidableEq, Repr

/-- The raw prescription-volume table; `hasVol` records whether any of
the candidate volume columns exists (app_v1.py lines 72-79). -/
structure RxTable where
  rows : List RxRow
  hasVol : Bool
deriving DecidableEq, Repr

/-- The tuple of the eight classification columns of a row. -/
structure AtcKey where
  L1_code : Option String
  L1_name : Option String
  L2_code : Option String
  L2_name : Option String
  L3_code : Option String
  L3_name : Option String
  L4_code : Option String
  L4_name : Option String
deriving DecidableEq, Repr

/-- The `groupby` key of the publications aggregation (app_v1.py lines
61-63). -/
structure PubsKey where
  cui : Option String
  rxnorm_name : Option String
  rxnorm_tty : Option String
  atc : AtcKey
deriving DecidableEq, Repr

/-- The `groupby` key of the publications aggregation, extracted. -/
def pubsKey (r : PubsRow) : PubsKey :=
  { cui := r.cui
    rxnorm_name := r.rxnorm_name
    rxnorm_tty := r.rxnorm_tty
    atc :=
      { L1_code := r.L1_code
        L1_name := r.L1_name
        L2_code := r.L2_code
        L2_name := r.L2_name
        L3_code := r.L3_code
        L3_name := r.L3_name
        L4_code := r.L4_code
        L4_name := r.L4_name } }

/-- Pandas `groupby` silently drops any row whose group key contains a
null; this predicate keeps the rows it groups. -/
def pubsKeyOk (r : PubsRow) : Bool :=
  r.cui.isSome && r.rxnorm_name.isSome && r.rxnorm_tty.isSome &&
    r.L1_code.isSome && r.L1_name.isSome && r.L2_code.isSome &&
    r.L2_name.isSome && r.L3_code.isSome && r.L3_name.isSome &&
    r.L4_code.isSome && r.L4_name.isSome

/-- The summed publication count of the key-group of `r0` (pandas `sum`
treats null counts as zero). -/
def groupPubSum (valid : List PubsRow) (r0 : PubsRow) : ℤ :=
  ((valid.filter (fun r => decide (pubsKey r = pubsKey r0))).map
    (fun r => r.unique_pub_count.getD 0)).sum

/-- `pubs.groupby(group_keys, as_index=False)["unique_pub_count"].sum()`
(app_v1.py line 64): one row per key of a groupable row, carrying the
group's summed count. -/
def pubsAgg (rows : List PubsRow) : List PubsRow :=
  let valid := rows.filter pubsKeyOk
  (dedupBy pubsKey valid).map
    (fun r0 => { r0 with unique_pub_count := some (groupPubSum valid r0) })

/-- The publications side of `load_data` (app_v1.py lines 43-66): keep
rows with a real drug name (or install an empty name when the column is
missing), then aggregate when the count column exists, else attach a
zero count to every row without grouping. -/
def pubsStage (t : PubsTable) : List PubsRow :=
  let named :=
    if t.hasRxnormName then
      t.rows.filter (fun r =>
        match r.rxnorm_name with
        | some s => decide (pyStrip s ≠ "")
        | none => false)
    else t.rows.map (fun r => { r with rxnorm_name := some "" })
  if t.hasPubCount then pubsAgg named
  else named.map (fun r => { r with unique_pub_count := some 0 })

/-- The volume side of `load_data` (app_v1.py lines 69-83): when no
volume column exists every row gets volume zero. -/
def rxStage (t : RxTable) : List RxRow :=
  if t.hasVol then t.rows
  else t.rows.map (fun r => { r with vol := some 0 })

/-- The merge key `rx_keys` (app_v1.py line 82). -/
structure MergeKey where
  cui : Option String
  atc : AtcKey
deriving DecidableEq, Repr

/-- The merge key `rx_keys` on the left table. -/
def mergeKeyP (r : PubsRow) : MergeKey :=
  { cui := r.cui
    atc :=
      { L1_code := r.L1_code
        L1_name := r.L1_name
        L2_code := r.L2_code
        L2_name := r.L2_name
        L3_code := r.L3_code
        L3_name := r.L3_name
        L4_code := r.L4_code
        L4_name := r.L4_name } }

/-- The merge key `rx_keys` on the right table. -/
def mergeKeyR (r : RxRow) : MergeKey :=
  { cui := r.cui
    atc :=
      { L1_code := r.L1_code
        L1_name := r.L1_name
        L2_code := r.L2_code
        L2_name := r.L2_name
        L3_code := r.L3_code
        L3_name := r.L3_name
        L4_code := r.L4_code
        L4_name := r.L4_name } }

/-- A merged row before the volume fill and the sentinel fill, with the
friendly column names of app_v1.py lines 90-94 already applied. -/
structure MergedRow where
  cui : Option String
  rxnorm_tty : Option String
  drug_name : Option String
  L1_code : Option String
  L1_name : Option String
  L2_code : Option String
  L2_name : Option String
  L3_code : Option String
  L3_name : Option String
  L4_code : Option String
  L4_name : Option String
  pub_count : Option ℤ
  vol : Option ℤ
deriving DecidableEq, Repr

/-- Build one merged row from a left row and an optional volume. -/
def mkMerged (p : PubsRow) (v : Option ℤ) : MergedRow :=
  { cui := p.cui
    rxnorm_tty := p.rxnorm_tty
    drug_name := p.rxnorm_name
    L1_code := p.L1_code
    L1_name := p.L1_name
    L2_code := p.L2_code
    L2_name := p.L2_name
    L3_code := p.L3_code
    L3_name := p.L3_name
    L4_code := p.L4_code
    L4_name := p.L4_name
    pub_count := p.unique_pub_count
    vol := v }

/-- `pubs_agg.merge(rx, on=rx_keys, how="left")` (app_v1.py line 86): a
left row with no key match yields one row with a null volume, otherwise
one row per matching right row. -/
def mergeLeft (ps : List PubsRow) (xs : List RxRow) : List MergedRow :=
  ps.flatMap (fun p =>
    let ms := xs.filter (fun x => decide (mergeKeyR x = mergeKeyP p))
    if ms.isEmpty then [mkMerged p none]
    else ms.map (fun m => mkMerged p m.vol))

/-- A fully loaded row of the app_v1 pipeline. -/
structure V1Row where
  cui : Option String
  rxnorm_tty : Option String
  drug_name : Option String
  L1_code : Option String
  L1_name : Option String
  L2_code : Option String
  L2_name : Option String
  L3_code : Option String
  L3_name : Option String
  L4_code : Option String
  L4_name : Option String
  pub_count : Option ℤ
  rx_volume : ℤ
deriving DecidableEq, Repr

/-- The volume fill `fillna(0).astype(int)` (app_v1.py line 87) and the
classification sentinel fill `fillna("(unknown)")` (lines 96-99). -/
def fillMerged (m : MergedRow) : V1Row :=
  { cui := m.cui
    rxnorm_tty := m.rxnorm_tty
    drug_name := m.drug_name
    L1_code := some (m.L1_code.getD "(unknown)")
    L1_name := some (m.L1_name.getD "(unknown)")
    L2_code := some (m.L2_code.getD "(unknown)")
    L2_name := some (m.L2_name.getD "(unknown)")
    L3_code := some (m.L3_code.getD "(unknown)")
    L3_name := some (m.L3_name.getD "(unknown)")
    L4_code := some (m.L4_code.getD "(unknown)")
    L4_name := some (m.L4_name.getD "(unknown)")
    pub_count := m.pub_count
    rx_volume := m.vol.getD 0 }

/-- `load_data` (app_v1.py lines 40-101). -/
def load_data (p : PubsTable) (x : RxTable) : List V1Row :=
  (mergeLeft (pubsStage p) (rxStage x)).map fillMerged

/-- Whether the first list is an initial segment of the second. -/
def startsWith : List Char → List Char → Bool
  | [], _ => true
  | _ :: _, [] => false
  | a :: as, b :: bs => decide (a = b) && startsWith as bs

/-- The part of `l` before the first occurrence of the separator `sep`
(all of `l` when the separator never occurs), as in Python
`l.split(sep, 1)[0]` for a non-empty separator. -/
def beforeSep (sep : List Char) : List Char → List Char
  | [] => []
  | c :: t => if startsWith sep (c :: t) then [] else c :: beforeSep sep t

/-- `code_from_label` (app_v1.py lines 150-154): "(all)" and the empty
label select nothing, otherwise the code before the em-dash separator. -/
def code_from_label (label : String) : Option String :=
  if label = "" ∨ label = "(all)" then none
  else some (pyStrip (String.mk (beforeSep " — ".toList label.toList)))

/-- One level filter of the app_v1 loop (lines 156-159): an extracted
code filters only when it is non-empty (Python truthiness). -/
def v1LvlFilter (get : V1Row → Option String) (sel : String)
    (rows : List V1Row) : List V1Row :=
  match code_from_label sel with
  | none => rows
  | some c =>
    if c = "" then rows else rows.filter (fun r => decide (get r = some c))

/-- The full four-level filter loop of app_v1.py lines 156-159. -/
def v1Filtered (rows : List V1Row) (s1 s2 s3 s4 : String) : List V1Row :=
  v1LvlFilter V1Row.L4_code s4
    (v1LvlFilter V1Row.L3_code s3
      (v1LvlFilter V1Row.L2_code s2
        (v1LvlFilter V1Row.L1_code s1 rows)))

/-- The display `groupby` key (app_v1.py line 164). -/
structure DisplayKey where
  cui : Option String
  drug_name : Option String
  atc : AtcKey
deriving DecidableEq, Repr

/-- The display `groupby` key of a loaded row. -/
def aggKey (r : V1Row) : DisplayKey :=
  { cui := r.cui
    drug_name := r.drug_name
    atc :=
      { L1_code := r.L1_code
        L1_name := r.L1_name
        L2_code := r.L2_code
        L2_name := r.L2_name
        L3_code := r.L3_code
        L3_name := r.L3_name
        L4_code := r.L4_code
        L4_name := r.L4_name } }

/-- Rows whose display group key is null-free (pandas drops the rest). -/
def aggKeyOk (r : V1Row) : Bool :=
  r.cui.isSome && r.drug_name.isSome && r.L1_code.isSome &&
    r.L1_name.isSome && r.L2_code.isSome && r.L2_name.isSome &&
    r.L3_code.isSome && r.L3_name.isSome && r.L4_code.isSome &&
    r.L4_name.isSome

/-- Strict order on optional strings, nulls first.  Pandas `groupby`
drops rows with null keys before sorting, so the null case is
unreachable for the keys this file sorts. -/
def optStrLt : Option String → Option String → Bool
  | none, none => false
  | none, some _ => true
  | some _, none => false
  | some a, some b => listLt a.toList b.toList

/-- The ten key columns of a display key in `group_cols` order
(app_v1.py line 164). -/
def keyFields (k : DisplayKey) : List (Option String) :=
  [k.cui, k.drug_name, k.atc.L1_code, k.atc.L1_name, k.atc.L2_code,
    k.atc.L2_name, k.atc.L3_code, k.atc.L3_name, k.atc.L4_code,
    k.atc.L4_name]

/-- Lexicographic comparison of key-column lists. -/
def keyLeList : List (Option String) → List (Option String) → Bool
  | [], _ => true
  | _ :: _, [] => false
  | a :: as, b :: bs =>
    if optStrLt a b then true
    else if optStrLt b a then false
    else keyLeList as bs

/-- The order in which `groupby(group_cols, sort=True)` — the pandas
default used at app_v1.py line 165 — emits its groups: sorted by the
key tuple. -/
def keyLe (a b : DisplayKey) : Bool := keyLeList (keyFields a) (keyFields b)

/-- One aggregated display group (app_v1.py lines 165-167). -/
structure AggOut where
  cui : Option String
  drug_name : Option String
  L1_code : Option String
  L1_name : Option String
  L2_code : Option String
  L2_name : Option String
  L3_code : Option String
  L3_name : Option String
  L4_code : Option String
  L4_name : Option String
  pub_count : ℤ
  rx_volume : ℤ
deriving DecidableEq, Repr

/-- The group key carried by an aggregated display group. -/
def outKey (g : AggOut) : DisplayKey :=
  { cui := g.cui
    drug_name := g.drug_name
    atc :=
      { L1_code := g.L1_code
        L1_name := g.L1_name
        L2_code := g.L2_code
        L2_name := g.L2_name
        L3_code := g.L3_code
        L3_name := g.L3_name
        L4_code := g.L4_code
        L4_name := g.L4_name } }

/-- Build the aggregated group of `r0` by summing both metrics over the
rows sharing its key (pandas `sum` treats null counts as zero). -/
def mkAggOut (valid : List V1Row) (r0 : V1Row) : AggOut :=
  let grp := valid.filter (fun r => decide (aggKey r = aggKey r0))
  { cui := r0.cui
    drug_name := r0.drug_name
    L1_code := r0.L1_code
    L1_name := r0.L1_name
    L2_code := r0.L2_code
    L2_name := r0.L2_name
    L3_code := r0.L3_code
    L3_name := r0.L3_name
    L4_code := r0.L4_code
    L4_name := r0.L4_name
    pub_count := (grp.map (fun r => r.pub_count.getD 0)).sum
    rx_volume := (grp.map V1Row.rx_volume).sum }

/-- `filtered.groupby(group_cols, as_index=False).agg(...)` (app_v1.py
lines 165-167): rows with a null key column are dropped, one output row
is produced per distinct key, and — `groupby` defaulting to
`sort=True` — the groups are emitted sorted by their key, not in the
order the keys first appear in the input. -/
def aggregateGroups (rows : List V1Row) : List AggOut :=
  let valid := rows.filter aggKeyOk
  (sortBy (fun a b => keyLe (aggKey a) (aggKey b))
    (dedupBy aggKey valid)).map (mkAggOut valid)

/-- The metric column selected at app_v1.py lines 140-141. -/
def metricVal (pubsMetric : Bool) (g : AggOut) : ℤ :=
  if pubsMetric then g.pub_count else g.rx_volume

/-- Descending comparison on the chosen metric, the sort key of
`sort_values(metric_col, ascending=False)` (app_v1.py line 168). -/
def metricGe (pubsMetric : Bool) (a b : AggOut) : Bool :=
  decide (metricVal pubsMetric b ≤ metricVal pubsMetric a)

/-- The aggregate-sort-truncate display pipeline `agg` (app_v1.py lines
165-169): group, sort by the chosen metric descending, keep the first
`top_n` groups.  As with the poc sort, pandas `sort_values` with its
default unstable kind fixes only the metric order of the result; the
embedding commits to a deterministic insertion sort, and only theorems
whose concrete inputs are small enough that the library sort coincides
with it (a two-element tie, which the library handles with its
small-array insertion sort) rely on its tie order. -/
def agg_rank (rows : List V1Row) (pubsMetric : Bool) (top_n : ℕ) :
    List AggOut :=
  (sortBy (metricGe pubsMetric) (aggregateGroups rows)).take top_n

/-! ## Properties of the comparison functions -/

theorem listLe_total : ∀ a b : List Char, listLe a b = true ∨ listLe b a = true := by
  intro a
  induction a with
  | nil => intro b; left; rfl
  | cons x as ih =>
    intro b
    cases b with
    | nil => right; rfl
    | cons y bs =>
      by_cases h1 : x.toNat < y.toNat
      · left; simp [listLe, h1]
      · by_cases h2 : y.toNat < x.toNat
        · right; simp [listLe, h2]
        · rcases ih bs with h | h
          · left; simp [listLe, h1, h2, h]
          · right; simp [listLe, h1, h2, h]

theorem listLe_trans :
    ∀ a b c : List Char, listLe a b = true → listLe b c = true →
      listLe a c = true := by
  intro a
  induction a with
  | nil => intro b c _ _; rfl
  | cons x as ih =>
    intro b c hab hbc
    cases b with
    | nil => simp [listLe] at hab
    | cons y bs =>
      cases c with
      | nil => simp [listLe] at hbc
      | cons z cs =>
        by_cases hxy : x.toNat < y.toNat
        · by_cases hyz : y.toNat < z.toNat
          · simp [listLe, show x.toNat < z.toNat by omega]
          · by_cases hzy : z.toNat < y.toNat
            · simp [listLe, hyz, hzy] at hbc
            · simp [listLe, show x.toNat < z.toNat by omega]
        · by_cases hyx : y.toNat < x.toNat
          · simp [listLe, hxy, hyx] at hab
          · simp only [listLe, if_neg hxy, if_neg hyx] at hab
            by_cases hyz : y.toNat < z.toNat
            · simp [listLe, show x.toNat < z.toNat by omega]
            · by_cases hzy : z.toNat < y.toNat
              · simp [listLe, hyz, hzy] at hbc
              · simp only [listLe, if_neg hyz, if_neg hzy] at hbc
                have hxz : ¬ x.toNat < z.toNat := by omega
                have hzx : ¬ z.toNat < x.toNat := by omega
                simp only [listLe, if_neg hxz, if_neg hzx]
                exact ih bs cs hab hbc

theorem strLe_total (a b : String) : strLe a b = true ∨ strLe b a = true :=
  listLe_total a.toList b.toList

theorem strLe_trans (a b c : String) :
    strLe a b = true → strLe b c = true → strLe a c = true :=
  listLe_trans a.toList b.toList c.toList

theorem optBefore_total (asc : Bool) (x y : Option ℚ) :
    optBefore asc x y = true ∨ optBefore asc y x = true := by
  cases x with
  | none => cases y <;> simp [optBefore]
  | some a =>
    cases y with
    | none => simp [optBefore]
    | some b => cases asc <;> simp [optBefore] <;> exact le_total _ _

theorem optBefore_trans (asc : Bool) (x y z : Option ℚ) :
    optBefore asc x y = true → optBefore asc y z = true →
      optBefore asc x z = true := by
  cases x with
  | none =>
    cases y with
    | none => cases z <;> simp [optBefore]
    | some b => simp [optBefore]
  | some a =>
    cases y with
    | none =>
      cases z with
      | none => simp [optBefore]
      | some c => simp [optBefore]
    | some b =>
      cases z with
      | none => simp [optBefore]
      | some c =>
        cases asc <;> simp [optBefore] <;> intro h1 h2
        · exact le_trans h2 h1
        · exact le_trans h1 h2

theorem metricGe_total (m : Bool) (a b : AggOut) :
    metricGe m a b = true ∨ metricGe m b a = true := by
  simp only [metricGe, decide_eq_true_eq]
  exact le_total _ _

theorem metricGe_trans (m : Bool) (a b c : AggOut) :
    metricGe m a b = true → metricGe m b c = true → metricGe m a c = true := by
  simp only [metricGe, decide_eq_true_eq]
  intro h1 h2
  exact le_trans h2 h1

/-! ## Small helper lemmas about the embedded operations -/

/-- Membership in one cascading level filter: "All" keeps every row, any
other choice keeps exactly the rows whose level value equals it. -/
theorem mem_lvlFilter (get : SmrRow → Option String) (choice : String)
    (l : List SmrRow) (r : SmrRow) :
    r ∈ lvlFilter get choice l ↔
      (r ∈ l ∧ (choice = "All" ∨ get r = some choice)) := by
  by_cases h : choice = "All"
  · simp [lvlFilter, h]
  · rw [lvlFilter, if_neg h, List.mem_filter]
    simp [h]

/-- The option list of any level over any subset satisfies the
`available_values` contract. -/
theorem availSpec_holds (sub : List SmrRow) (get : SmrRow → Option String) :
    availSpec sub get := by
  refine ⟨rfl, pairwise_sortBy strLe strLe_total strLe_trans _, ?_, ?_⟩
  · have hnd : ((dedupBy id ((sub.map get).filterMap id)).filter
        (fun x => decide (pyStrip x ≠ ""))).Nodup :=
      (pairwise_dedupBy id _).filter _
    exact ((perm_sortBy strLe _).nodup_iff).mpr hnd
  · intro x
    rw [opts, List.mem_cons, mem_sortBy, List.mem_filter, mem_dedupBy_id]
    constructor
    · rintro (rfl | ⟨hx, hstrip⟩)
      · exact Or.inl rfl
      · right
        refine ⟨of_decide_eq_true hstrip, ?_⟩
        rcases List.mem_filterMap.mp hx with ⟨o, ho, hox⟩
        rcases List.mem_map.mp ho with ⟨r, hr, rfl⟩
        exact ⟨r, hr, by simpa using hox⟩
    · rintro (rfl | ⟨hstrip, r, hr, hget⟩)
      · exact Or.inl rfl
      · right
        refine ⟨List.mem_filterMap.mpr
          ⟨get r, List.mem_map.mpr ⟨r, hr, rfl⟩, by simpa using hget⟩,
          by simpa using hstrip⟩

/-- The display key survives the aggregation of a group. -/
theorem outKey_mkAggOut (valid : List V1Row) (r0 : V1Row) :
    outKey (mkAggOut valid r0) = aggKey r0 := rfl

theorem lvlS_ne (c : Option String) :
    lvlS c ≠ some "" ∧ lvlS c ≠ some "nan" := by
  unfold lvlS
  by_cases h : strS c = "" ∨ strS c = "nan"
  · simp [h]
  · rw [if_neg h]
    push_neg at h
    exact ⟨by simpa using h.1, by simpa using h.2⟩

theorem pubsKey_update (r : PubsRow) (c : Option ℤ) :
    pubsKey { r with unique_pub_count := c } = pubsKey r := rfl

theorem pubsStage_isSome (t : PubsTable) :
    ∀ q ∈ pubsStage t, q.unique_pub_count.isSome = true := by
  intro q hq
  simp only [pubsStage] at hq
  by_cases hc : t.hasPubCount
  · rw [if_pos hc] at hq
    simp only [pubsAgg] at hq
    rcases List.mem_map.mp hq with ⟨r0, _, rfl⟩
    rfl
  · rw [if_neg hc] at hq
    rcases List.mem_map.mp hq with ⟨r0, _, rfl⟩
    rfl

theorem mem_mergeLeft (ps : List PubsRow) (xs : List RxRow) (m : MergedRow) :
    m ∈ mergeLeft ps xs → ∃ q ∈ ps, ∃ v, m = mkMerged q v := by
  intro hm
  rw [mergeLeft, List.mem_flatMap] at hm
  rcases hm with ⟨q, hq, hmem⟩
  refine ⟨q, hq, ?_⟩
  by_cases he :
      (xs.filter (fun x => decide (mergeKeyR x = mergeKeyP q))).isEmpty
  · rw [if_pos he] at hmem
    simp at hmem
    exact ⟨none, hmem⟩
  · rw [if_neg he] at hmem
    rcases List.mem_map.mp hmem with ⟨w, _, hw⟩
    exact ⟨w.vol, hw.symm⟩

/-! ## Concrete tables used by the claim theorems -/

/-- Two raw smr3 rows sharing the same (identity, classification-path)
key with metrics 5/10 and 3/2. -/
def smrDup : RawSmrTable :=
  { rows := [
      { cui := some "C1", l1 := some "N", l4 := some "N06",
        prescriptions := some "10", pubs := some "5" },
      { cui := some "C1", l1 := some "N", l4 := some "N06",
        prescriptions := some "2", pubs := some "3" }],
    hasIsFirst := false }

/-- The first of two duplicate-key publication rows. -/
def pubsDupRow1 : PubsRow :=
  { cui := some "C1", rxnorm_tty := some "IN", rxnorm_name := some "drugA",
    L1_code := some "N", L1_name := some "n", L2_code := some "N06",
    L2_name := some "m", L3_code := some "N06B", L3_name := some "o",
    L4_code := some "N06BA", L4_name := some "p", unique_pub_count := some 5 }

/-- The second duplicate-key publication row, count 3. -/
def pubsDupRow2 : PubsRow := { pubsDupRow1 with unique_pub_count := some 3 }

/-- A publications table with two duplicate-key rows. -/
def pubsDup : PubsTable :=
  { rows := [pubsDupRow1, pubsDupRow2], hasRxnormName := true,
    hasPubCount := true }

/-- An empty prescription-volume table. -/
def rxEmpty : RxTable := { rows := [], hasVol := true }

/-- A raw smr3 table exercising the `is_first` filter: values "1", "0",
"abc", " 1 ", missing, "1.0". -/
def smrIsFirst : RawSmrTable :=
  { rows := [
      { drug := some "a", is_first := some "1" },
      { drug := some "b", is_first := some "0" },
      { drug := some "c", is_first := some "abc" },
      { drug := some "d", is_first := some " 1 " },
      { drug := some "e" },
      { drug := some "f", is_first := some "1.0" }],
    hasIsFirst := true }

/-- A raw row whose l1 is empty and whose l2 is the literal "nan". -/
def blankRaw : RawSmrRow :=
  { l1 := some "", l2 := some "nan", l3 := none, l4 := some "N06" }

/-- A one-row table with blank classification values. -/
def smrBlank : RawSmrTable := { rows := [blankRaw], hasIsFirst := false }

/-- A publications row with a missing L1 code and a missing count. -/
def pubsBlankRow : PubsRow :=
  { cui := some "C3", rxnorm_name := some "drugC", L1_code := none,
    unique_pub_count := none }

/-- A publications table without the count column, so that no grouping
happens and the null L1 code survives to the sentinel fill. -/
def pubsBlank : PubsTable :=
  { rows := [pubsBlankRow], hasRxnormName := true, hasPubCount := false }

/-- A raw row whose pubs cell is unparseable and whose prescriptions
cell is missing. -/
def badNumRaw : RawSmrRow := { drug := some "d", pubs := some "abc" }

/-- A one-row table with a bad numeric cell. -/
def smrBadNum : RawSmrTable := { rows := [badNumRaw], hasIsFirst := false }

/-! ## Claim C1 -/

/-- Claim C1, counterexample: loading the two duplicate-key rows with
pubs 5/3 and prescriptions 10/2 through the poc loader yields two rows
with the original metrics, not one row with the sums 8 and 12 —
`load_smr` performs no duplicate-key collapsing at all. -/
theorem c1_counterexample :
    (load_smr smrDup).length = 2
    ∧ (load_smr smrDup).map SmrRow.pubs = [some 5, some 3]
    ∧ (load_smr smrDup).map SmrRow.prescriptions = [some 10, some 2] := by
  decide

/-- Claim C1, amended: in app_v1's `load_data` the publications table is
collapsed by the (identity, classification-path) key — the output keys
are pairwise distinct, each output row carries the sum of its group's
counts, and every groupable input row (one whose key is null-free; rows
with a null key column are dropped by pandas `groupby`) is represented.
Prescription volume is not summed at load: it is left-joined from the
separate volume table.  The poc loader `load_smr` does not deduplicate
at all. -/
theorem c1_amended (rows : List PubsRow) :
    (pubsAgg rows).Pairwise (fun a b => pubsKey a ≠ pubsKey b)
    ∧ (∀ g ∈ pubsAgg rows,
        g.unique_pub_count = some ((((rows.filter pubsKeyOk).filter
          (fun r => decide (pubsKey r = pubsKey g))).map
          (fun r => r.unique_pub_count.getD 0)).sum))
    ∧ (∀ r ∈ rows, pubsKeyOk r = true →
        ∃ g ∈ pubsAgg rows, pubsKey g = pubsKey r) := by
  refine ⟨?_, ?_, ?_⟩
  · simp only [pubsAgg]
    refine List.pairwise_map.mpr ?_
    have h := pairwise_dedupBy pubsKey (rows.filter pubsKeyOk)
    exact h.imp (fun hne => by simpa [pubsKey_update] using hne)
  · intro g hg
    simp only [pubsAgg] at hg
    rcases List.mem_map.mp hg with ⟨r0, _, rfl⟩
    rfl
  · intro r hr hok
    have hrv : r ∈ rows.filter pubsKeyOk := List.mem_filter.mpr ⟨hr, hok⟩
    rcases dedupBy_covers pubsKey (rows.filter pubsKeyOk) r hrv with ⟨g0, hg0, hk⟩
    refine ⟨{ g0 with
      unique_pub_count := some (groupPubSum (rows.filter pubsKeyOk) g0) }, ?_, ?_⟩
    · simp only [pubsAgg]
      exact List.mem_map.mpr ⟨g0, hg0, rfl⟩
    · rw [pubsKey_update]
      exact hk

/-- Claim C1, witness: the amended theorem applied to the duplicate-key
publications table, together with the end-to-end fact that `load_data`
collapses the two rows with counts 5 and 3 into one row with publication
count 8 (and zero volume, the volume table being empty). -/
theorem c1_witness :
    (∃ g ∈ pubsAgg pubsDup.rows, pubsKey g = pubsKey pubsDupRow1)
    ∧ (load_data pubsDup rxEmpty).map V1Row.pub_count = [some 8]
    ∧ (load_data pubsDup rxEmpty).map V1Row.rx_volume = [0]
    ∧ (load_data pubsDup rxEmpty).length = 1 := by
  refine ⟨(c1_amended pubsDup.rows).2.2 pubsDupRow1 (by decide) (by decide),
    by decide, by decide, by decide⟩

/-! ## Claim C2 -/

/-- Claim C2: when a raw table carries an `is_first` column, `load_smr`
retains exactly the rows whose coerced `is_first` value equals 1, so the
loaded row count equals the count of such rows; all other rows are
dropped silently (the loader is total). -/
theorem c2_is_first_filter (t : RawSmrTable) (h : t.hasIsFirst = true) :
    (load_smr t).length =
      (t.rows.filter (fun r => decide (toNumQ r.is_first = some 1))).length := by
  simp [load_smr, h]

/-- Claim C2, witness: on the six-row table the filter keeps exactly the
rows with values "1", " 1 " and "1.0". -/
theorem c2_witness :
    smrIsFirst.hasIsFirst = true
    ∧ (load_smr smrIsFirst).length =
        (smrIsFirst.rows.filter
          (fun r => decide (toNumQ r.is_first = some 1))).length
    ∧ (load_smr smrIsFirst).length = 3
    ∧ (load_smr smrIsFirst).map SmrRow.drug = ["a", "d", "f"] := by
  refine ⟨rfl, c2_is_first_filter smrIsFirst rfl, by decide, by decide⟩

/-! ## Claim C3 -/

/-- Claim C3, counterexample: the poc loader maps an empty l1 and a
literal "nan" l2 to null, not to the sentinel "(unknown)", so a null
classification value does survive loading. -/
theorem c3_counterexample :
    (load_smr smrBlank).map SmrRow.l1 = [none]
    ∧ (load_smr smrBlank).map SmrRow.l2 = [none]
    ∧ ∀ r ∈ load_smr smrBlank,
        r.l1 ≠ some "(unknown)" ∧ r.l2 ≠ some "(unknown)" := by
  decide

/-- Claim C3, amended: the sentinel "(unknown)" fill is app_v1 behaviour
only — after `load_data` every classification column is non-null; the
poc loader instead normalizes empty and "nan" classification values to
null, so after `load_smr` no level column holds the empty string or the
"nan" placeholder (but null survives, and no sentinel is written). -/
theorem c3_amended :
    (∀ (p : PubsTable) (x : RxTable), ∀ row ∈ load_data p x,
        row.L1_code.isSome = true ∧ row.L1_name.isSome = true
        ∧ row.L2_code.isSome = true ∧ row.L2_name.isSome = true
        ∧ row.L3_code.isSome = true ∧ row.L3_name.isSome = true
        ∧ row.L4_code.isSome = true ∧ row.L4_name.isSome = true)
    ∧ (∀ (t : RawSmrTable), ∀ r ∈ load_smr t,
        (r.l1 ≠ some "" ∧ r.l1 ≠ some "nan")
        ∧ (r.l2 ≠ some "" ∧ r.l2 ≠ some "nan")
        ∧ (r.l3 ≠ some "" ∧ r.l3 ≠ some "nan")
        ∧ (r.l4 ≠ some "" ∧ r.l4 ≠ some "nan")) := by
  constructor
  · intro p x row hrow
    simp only [load_data] at hrow
    rcases List.mem_map.mp hrow with ⟨m, _, rfl⟩
    exact ⟨rfl, rfl, rfl, rfl, rfl, rfl, rfl, rfl⟩
  · intro t r hr
    simp only [load_smr] at hr
    rcases List.mem_map.mp hr with ⟨raw, _, rfl⟩
    exact ⟨lvlS_ne raw.l1, lvlS_ne raw.l2, lvlS_ne raw.l3, lvlS_ne raw.l4⟩

/-- Claim C3, witness: app_v1 turns the missing L1 code into the
sentinel, and the amended theorem instantiated at the blank poc row. -/
theorem c3_witness :
    (load_data pubsBlank rxEmpty).map V1Row.L1_code = [some "(unknown)"]
    ∧ normSmrRow blankRaw ∈ load_smr smrBlank
    ∧ ((normSmrRow blankRaw).l1 ≠ some ""
        ∧ (normSmrRow blankRaw).l1 ≠ some "nan") := by
  refine ⟨by decide, by decide,
    (c3_amended.2 smrBlank (normSmrRow blankRaw) (by decide)).1⟩

/-! ## Claim C4 -/

/-- Claim C4, counterexample: after the poc loader an unparseable pubs
cell and a missing prescriptions cell are both null, not zero — the
numeric metrics of the normalized row-set are not defined non-null
values. -/
theorem c4_counterexample :
    (load_smr smrBadNum).map (fun r => (r.pubs, r.prescriptions)) =
      [(none, none)] := by
  decide

/-- Claim C4, amended: in the poc loader the metric columns are exactly
the lenient parses of the raw cells — missing or unparseable values stay
null and are never zero-filled; in app_v1's `load_data` the merged
prescription volume is zero-filled (a row with no volume match gets 0)
and the publication count is always non-null. -/
theorem c4_amended :
    (∀ (t : RawSmrTable), ∀ r ∈ load_smr t,
        ∃ raw ∈ t.rows,
          r.pubs = toNumQ raw.pubs
          ∧ r.prescriptions = toNumQ raw.prescriptions)
    ∧ (∀ (p : PubsTable) (x : RxTable), ∀ row ∈ load_data p x,
        ∃ m ∈ mergeLeft (pubsStage p) (rxStage x),
          row = fillMerged m
          ∧ (m.vol = none → row.rx_volume = 0)
          ∧ row.pub_count.isSome = true) := by
  constructor
  · intro t r hr
    simp only [load_smr] at hr
    rcases List.mem_map.mp hr with ⟨raw, hraw, rfl⟩
    refine ⟨raw, ?_, rfl, rfl⟩
    by_cases h : t.hasIsFirst
    · rw [if_pos h] at hraw
      exact List.mem_of_mem_filter hraw
    · rw [if_neg h] at hraw
      exact hraw
  · intro p x row hrow
    simp only [load_data] at hrow
    rcases List.mem_map.mp hrow with ⟨m, hm, rfl⟩
    refine ⟨m, hm, rfl, ?_, ?_⟩
    · intro hv
      show (fillMerged m).rx_volume = 0
      simp [fillMerged, hv]
    · rcases mem_mergeLeft _ _ m hm with ⟨q, hq, v, rfl⟩
      exact pubsStage_isSome p q hq

/-- Claim C4, witness: the amended theorem instantiated at the bad-cell
row, whose loaded pubs value is null. -/
theorem c4_witness :
    (∃ raw ∈ smrBadNum.rows,
        (normSmrRow badNumRaw).pubs = toNumQ raw.pubs
        ∧ (normSmrRow badNumRaw).prescriptions = toNumQ raw.prescriptions)
    ∧ (normSmrRow badNumRaw).pubs = none := by
  refine ⟨c4_amended.1 smrBadNum (normSmrRow badNumRaw) (by decide), by decide⟩

/-! ## Claim C8 -/

/-- Claim C8: selecting "All" at every hierarchy level returns the
row-set unchanged, in both the poc chain and the app_v1 filter loop
(whose all-selection is the "(all)" label). -/
theorem c8_all_identity (rows : List SmrRow) (drows : List V1Row) :
    smrFiltered rows "All" "All" "All" "All" = rows
    ∧ v1Filtered drows "(all)" "(all)" "(all)" "(all)" = drows := by
  constructor
  · simp [smrFiltered, lvlFilter]
  · have hc : code_from_label "(all)" = none := by decide
    simp [v1Filtered, v1LvlFilter, hc]

/-! ## Claim C9 -/

/-- Claim C9: a parse failure propagates out of the loader as the error
itself with no rows attached, a successful parse yields the full
normalized table, and `load_or_upload` returns either a propagated
error, the empty row-set, or the complete normalization of one of its
two candidate tables — never a partial row-set. -/
theorem c9_load_atomic :
    (∀ e, load_smr_result (Except.error e) = Except.error e)
    ∧ (∀ t, load_smr_result (Except.ok t) = Except.ok (load_smr t))
    ∧ (∀ fp up, (∃ e, load_or_upload_smr fp up = Except.error e)
        ∨ (∃ rows, load_or_upload_smr fp up = Except.ok rows
            ∧ (rows = [] ∨ ∃ t, rows = load_smr t
                ∧ (fp = some (Except.ok t) ∨ up = some (Except.ok t))))) := by
  refine ⟨fun e => rfl, fun t => rfl, ?_⟩
  intro fp up
  rcases fp with _ | f
  · rcases up with _ | u
    · exact Or.inr ⟨[], rfl, Or.inl rfl⟩
    · rcases u with e | t
      · exact Or.inl ⟨e, rfl⟩
      · exact Or.inr ⟨load_smr t, rfl, Or.inr ⟨t, rfl, Or.inr rfl⟩⟩
  · rcases f with e | t
    · rcases up with _ | u
      · exact Or.inr ⟨[], rfl, Or.inl rfl⟩
      · rcases u with e2 | t2
        · exact Or.inl ⟨e2, rfl⟩
        · exact Or.inr ⟨load_smr t2, rfl, Or.inr ⟨t2, rfl, Or.inr rfl⟩⟩
    · exact Or.inr ⟨load_smr t, rfl, Or.inr ⟨t, rfl, Or.inl rfl⟩⟩

/-! ## Claim C5 -/

/-- Claim C5: for every row-set and every partial selection of levels
1..k (each choice arbitrary, "All" included), the option list offered
for level k+1 — computed by `opts` from the subset remaining after the
level-1..k filters, exactly as app.py lines 163-173 chain them — starts
with "All" and otherwise consists of exactly the distinct non-null,
non-empty values of level k+1 occurring in that subset, sorted
ascending; each level filter keeps precisely the matching rows (or all
rows on "All"); and in particular, for a non-"All" level-1 choice every
offered level-2 value occurs in a row carrying that level-1 value, so
values occurring only under other level-1 groups are never offered. -/
theorem c5_cascading (rows : List SmrRow) (c1 c2 c3 : String) :
    availSpec rows SmrRow.l1
    ∧ availSpec (lvlFilter SmrRow.l1 c1 rows) SmrRow.l2
    ∧ availSpec (lvlFilter SmrRow.l2 c2 (lvlFilter SmrRow.l1 c1 rows))
        SmrRow.l3
    ∧ availSpec (lvlFilter SmrRow.l3 c3
        (lvlFilter SmrRow.l2 c2 (lvlFilter SmrRow.l1 c1 rows))) SmrRow.l4
    ∧ (∀ (get : SmrRow → Option String) (choice : String)
        (l : List SmrRow) (r : SmrRow),
        r ∈ lvlFilter get choice l ↔
          (r ∈ l ∧ (choice = "All" ∨ get r = some choice)))
    ∧ (c1 ≠ "All" →
        ∀ x ∈ opts ((lvlFilter SmrRow.l1 c1 rows).map SmrRow.l2),
          x ≠ "All" → ∃ r ∈ rows, r.l1 = some c1 ∧ r.l2 = some x) := by
  refine ⟨availSpec_holds _ _, availSpec_holds _ _, availSpec_holds _ _,
    availSpec_holds _ _, mem_lvlFilter, ?_⟩
  intro h x hx hxAll
  rcases ((availSpec_holds (lvlFilter SmrRow.l1 c1 rows) SmrRow.l2).2.2.2
      x).mp hx with hAll | ⟨_, r, hr, hl2⟩
  · exact absurd hAll hxAll
  · rcases (mem_lvlFilter SmrRow.l1 c1 rows r).mp hr with ⟨hrr, hor⟩
    rcases hor with hAll2 | hl1
    · exact absurd hAll2 h
    · exact ⟨r, hrr, hl1, hl2⟩

/-- Two loaded rows in distinct level-1 groups: N carrying N06 and J
carrying J05. -/
def smrCascade : List SmrRow :=
  [ { drug := "a", agegroup := "Total", cui := "C1", l1 := some "N",
      l2 := some "N06", l3 := none, l4 := none, prescriptions := none,
      pubs := none },
    { drug := "b", agegroup := "Total", cui := "C2", l1 := some "J",
      l2 := some "J05", l3 := none, l4 := none, prescriptions := none,
      pubs := none } ]

/-- Claim C5, witness: after filtering by L1 = "N" the level-2 options
are exactly ["All", "N06"]; "J05", which occurs only under L1 = "J", is
not offered; and every offered non-"All" value occurs under L1 = "N",
by the cascading theorem with its non-"All" hypothesis discharged. -/
theorem c5_witness :
    ("N" ≠ "All")
    ∧ (∀ x ∈ opts ((lvlFilter SmrRow.l1 "N" smrCascade).map SmrRow.l2),
        x ≠ "All" → ∃ r ∈ smrCascade, r.l1 = some "N" ∧ r.l2 = some x)
    ∧ opts ((lvlFilter SmrRow.l1 "N" smrCascade).map SmrRow.l2) =
        ["All", "N06"]
    ∧ "J05" ∉ opts ((lvlFilter SmrRow.l1 "N" smrCascade).map SmrRow.l2) := by
  refine ⟨by decide,
    (c5_cascading smrCascade "N" "x" "x").2.2.2.2.2 (by decide),
    by decide, by decide⟩

/-! ## Claim C6 -/

/-- Two rows with distinct display keys but equal publication counts,
the key that sorts second appearing first in the input. -/
def v1Tie : List V1Row :=
  [ { cui := some "C2", rxnorm_tty := some "IN", drug_name := some "B",
      L1_code := some "J", L1_name := some "j", L2_code := some "J05",
      L2_name := some "k", L3_code := some "J05A", L3_name := some "l",
      L4_code := some "J05AB", L4_name := some "q", pub_count := some 5,
      rx_volume := 1 },
    { cui := some "C1", rxnorm_tty := some "IN", drug_name := some "A",
      L1_code := some "N", L1_name := some "n", L2_code := some "N06",
      L2_name := some "m", L3_code := some "N06B", L3_name := some "o",
      L4_code := some "N06BA", L4_name := some "p", pub_count := some 5,
      rx_volume := 2 } ]

/-- Claim C6, counterexample: two groups tied at publication count 5,
with group B appearing before group A in the input row-set, are ranked
[A, B] — because `groupby` (pandas default `sort=True`) emits groups
sorted by key and a two-element tie leaves that order in place — so a
tie among equal metric values is not broken by retaining the groups'
original order of appearance in the input. -/
theorem c6_counterexample :
    v1Tie.map V1Row.drug_name = [some "B", some "A"]
    ∧ (aggregateGroups v1Tie).map AggOut.pub_count = [5, 5]
    ∧ (agg_rank v1Tie true 2).map AggOut.drug_name = [some "A", some "B"]
    ∧ (some "A" : Option String) ≠ some "B" := by
  decide

/-- Claim C6, amended: `agg_rank` groups the filtered rows by the
display key (the output groups' keys are pairwise distinct), orders the
groups by the chosen metric descending and returns the first `top_n`
after sorting; the output never exceeds `top_n` groups and every
returned group's metric dominates every group cut off by the
truncation; the poc results-table sort is likewise ordered by the
chosen metric in the chosen direction with nulls last; and both
pipelines are pure functions of their input, hence deterministic.  Tie
order among equal metric values, however, is not the claimed
retain-original-emission-order rule: groups are emitted key-sorted and
the library sort's tie behaviour is implementation-defined. -/
theorem c6_rank (rows : List V1Row) (srows : List SmrRow)
    (pubsMetric mp desc : Bool) (n : ℕ) (_hn : 0 < n) :
    agg_rank rows pubsMetric n =
      (sortBy (metricGe pubsMetric) (aggregateGroups rows)).take n
    ∧ (agg_rank rows pubsMetric n).Pairwise
        (fun a b => metricGe pubsMetric a b = true)
    ∧ (aggregateGroups rows).Pairwise (fun a b => outKey a ≠ outKey b)
    ∧ (agg_rank rows pubsMetric n).length ≤ n
    ∧ (∀ x ∈ agg_rank rows pubsMetric n,
        ∀ y ∈ (sortBy (metricGe pubsMetric) (aggregateGroups rows)).drop n,
          metricGe pubsMetric x y = true)
    ∧ (sortSmr mp desc srows).Pairwise
        (fun a b => optBefore (!desc) (smrMetric mp a) (smrMetric mp b)
          = true) := by
  have hsorted := pairwise_sortBy (metricGe pubsMetric)
    (metricGe_total pubsMetric) (metricGe_trans pubsMetric)
    (aggregateGroups rows)
  refine ⟨rfl, ?_, ?_, ?_, ?_, ?_⟩
  · exact List.Pairwise.sublist (List.take_sublist n _) hsorted
  · simp only [aggregateGroups]
    refine List.pairwise_map.mpr ?_
    have hd := pairwise_dedupBy aggKey (rows.filter aggKeyOk)
    have hperm := perm_sortBy (fun a b => keyLe (aggKey a) (aggKey b))
      (dedupBy aggKey (rows.filter aggKeyOk))
    have hs := (hperm.pairwise_iff (fun h => Ne.symm h)).mpr hd
    exact hs.imp (fun h => by simpa [outKey_mkAggOut] using h)
  · exact List.length_take_le n _
  · intro x hx y hy
    have hL := hsorted
    rw [← List.take_append_drop n
      (sortBy (metricGe pubsMetric) (aggregateGroups rows))] at hL
    exact (List.pairwise_append.mp hL).2.2 x hx y hy
  · exact pairwise_sortBy
      (fun a b => optBefore (!desc) (smrMetric mp a) (smrMetric mp b))
      (fun a b => optBefore_total (!desc) (smrMetric mp a) (smrMetric mp b))
      (fun a b c => optBefore_trans (!desc) (smrMetric mp a)
        (smrMetric mp b) (smrMetric mp c)) srows

/-- Two loaded rows forming two display groups with publication sums 5
and 8 and volumes 10 and 2. -/
def v1Groups : List V1Row :=
  [ { cui := some "C1", rxnorm_tty := some "IN", drug_name := some "A",
      L1_code := some "N", L1_name := some "n", L2_code := some "N06",
      L2_name := some "m", L3_code := some "N06B", L3_name := some "o",
      L4_code := some "N06BA", L4_name := some "p", pub_count := some 5,
      rx_volume := 10 },
    { cui := some "C2", rxnorm_tty := some "IN", drug_name := some "B",
      L1_code := some "J", L1_name := some "j", L2_code := some "J05",
      L2_name := some "k", L3_code := some "J05A", L3_name := some "l",
      L4_code := some "J05AB", L4_name := some "q", pub_count := some 8,
      rx_volume := 2 } ]

/-- Claim C6, witness: with two groups of publication sums 5 and 8,
descending sort and top 1 return exactly the group with sum 8; ranking
by the other metric returns volumes in the order [10, 2]. -/
theorem c6_witness :
    (0 < 1)
    ∧ (agg_rank v1Groups true 1).Pairwise
        (fun a b => metricGe true a b = true)
    ∧ (agg_rank v1Groups true 1).map AggOut.pub_count = [8]
    ∧ (agg_rank v1Groups true 1).map AggOut.drug_name = [some "B"]
    ∧ (agg_rank v1Groups false 2).map AggOut.rx_volume = [10, 2] := by
  refine ⟨by decide, (c6_rank v1Groups [] true true true 1 (by decide)).2.1,
    by decide, by decide, by decide⟩

/-! ## Claim C7 -/

/-- A raw smr3 table whose only drug FOO has a missing cui cell. -/
def smrNoCui : RawSmrTable :=
  { rows := [ { drug := some "FOO", agegroup := some "Total" } ],
    hasIsFirst := false }

/-- Raw adverse-event rows: a BAR row with a missing cui and a FOO row
with cui C9. -/
def prrNoCui : List RawPrrRow :=
  [ { drug := some "BAR", agegroup := some "0-2", pt := some "E1",
      prr := some "2" },
    { drug := some "FOO", cui := some "C9", agegroup := some "0-2",
      pt := some "E2", prr := some "3" } ]

/-- Claim C7, counterexample: drug FOO has no known cui (its loaded cui
is the "nan" placeholder produced by `astype(str)`), so the claim
prescribes the case-insensitive name fallback, which would return
exactly the FOO row — but the drill-down treats "nan" as a known cui and
returns the unrelated BAR row instead. -/
theorem c7_counterexample :
    (adeDf (load_smr smrNoCui) (load_prr prrNoCui) "FOO" "Total").map
        PrrRow.drug = ["BAR"]
    ∧ ((load_prr prrNoCui).filter
        (fun p => decide (casefold p.drug = casefold "FOO"))).map
        PrrRow.drug = ["FOO"]
    ∧ (∀ r ∈ load_smr smrNoCui, r.cui = "nan") := by
  decide

/-- Claim C7, amended: the drill-down joins on the first cui string
stored for the drug whenever that string is truthy (non-empty — a
missing cui is stored as the "nan" placeholder and therefore counts as
known), and falls back to case-insensitive exact name match only when no
row matches the drug or the stored string is empty; an age stratum other
than "Total" further restricts to exact age-group equality, and the
result is sorted descending by prr with nulls last. -/
theorem c7_amended (smr : List SmrRow) (prr : List PrrRow)
    (drug age : String) :
    (∀ p, p ∈ adeDf smr prr drug age ↔
      (p ∈ prr
        ∧ (if truthy (adeCui smr drug) = true
            then some p.cui = adeCui smr drug
            else casefold p.drug = casefold drug)
        ∧ (age = "Total" ∨ p.agegroup = age)))
    ∧ (adeDf smr prr drug age).Pairwise
        (fun a b => optBefore false a.prr b.prr = true) := by
  constructor
  · intro p
    simp only [adeDf]
    rw [mem_sortBy]
    by_cases ht : truthy (adeCui smr drug) = true
    · by_cases ha : age = "Total"
      · simp [ht, ha, List.mem_filter]
      · simp [ht, ha, List.mem_filter, and_assoc]
        intro _
        exact and_comm
    · by_cases ha : age = "Total"
      · simp [ht, ha, List.mem_filter]
      · simp [ht, ha, List.mem_filter, and_assoc]
        intro _
        exact and_comm
  · simp only [adeDf]
    exact pairwise_sortBy
      (fun (a b : PrrRow) => optBefore false a.prr b.prr)
      (fun (a b : PrrRow) => optBefore_total false a.prr b.prr)
      (fun (a b c : PrrRow) => optBefore_trans false a.prr b.prr c.prr) _

/-- A loaded smr row-set in which drug FOO carries cui C1. -/
def smrAde : List SmrRow :=
  [ { drug := "FOO", agegroup := "Total", cui := "C1", l1 := none,
      l2 := none, l3 := none, l4 := none, prescriptions := none,
      pubs := none } ]

/-- Loaded adverse-event rows for cui C1 whose prr values are 3.2, null
and 1.1 in that order. -/
def prrAde : List PrrRow :=
  [ { drug := "FOO", cui := "C1", agegroup := "0-2", pt := "E1",
      prr := some (Rat.divInt 32 10), ror := none, ic := none,
      ebgm := none },
    { drug := "FOO", cui := "C1", agegroup := "3-10", pt := "E2",
      prr := none, ror := none, ic := none, ebgm := none },
    { drug := "FOO", cui := "C1", agegroup := "0-2", pt := "E3",
      prr := some (Rat.divInt 11 10), ror := none, ic := none,
      ebgm := none } ]

/-- Claim C7, witness: prr values [3.2, null, 1.1] come back in the
order [3.2, 1.1, null], and the output is sorted by the nulls-last
descending comparison. -/
theorem c7_witness :
    ((adeDf smrAde prrAde "FOO" "Total").map PrrRow.prr =
      [some (Rat.divInt 32 10), some (Rat.divInt 11 10), none])
    ∧ (adeDf smrAde prrAde "FOO" "Total").Pairwise
        (fun a b => optBefore false a.prr b.prr = true) := by
  refine ⟨by decide, (c7_amended smrAde prrAde "FOO" "Total").2⟩

/-! ## Claim C10 -/

/-- A loaded smr row-set with one FOO row carrying cui C1. -/
def smrMix : List SmrRow :=
  [ { drug := "FOO", agegroup := "Total", cui := "C1", l1 := none,
      l2 := none, l3 := none, l4 := none, prescriptions := none,
      pubs := none } ]

/-- Loaded adverse-event rows for cui C1 in two different age strata. -/
def prrMix : List PrrRow :=
  [ { drug := "FOO", cui := "C1", agegroup := "0-2", pt := "E1",
      prr := some 2, ror := none, ic := none, ebgm := none },
    { drug := "FOO", cui := "C1", agegroup := "3-10", pt := "E2",
      prr := some 1, ror := none, ic := none, ebgm := none } ]

/-- Claim C10, counterexample: with the "Total" stratum selected the ADE
drill-down applies no age filter at all, so its displayed result mixes
rows of the "0-2" and "3-10" strata — "Total" acts as a wildcard in that
view, and not every results view is restricted to a single stratum. -/
theorem c10_counterexample :
    (adeDf smrMix prrMix "FOO" "Total").map PrrRow.agegroup =
      ["0-2", "3-10"]
    ∧ ("0-2" : String) ≠ "3-10" := by
  decide

/-- Claim C10, amended: the selectable strata always lie in the four
concrete values of `age_order`; the main results table is always
restricted by exact age-group equality with the selected stratum
("Total" being an ordinary data value there); but the ADE drill-down is
so restricted only when the stratum is not "Total" — with "Total" it
returns rows of every stratum. -/
theorem c10_age_filter (rows smr : List SmrRow) (prr : List PrrRow)
    (c1 c2 c3 c4 age drug : String) (picks : List String) (mp d : Bool) :
    (∀ a ∈ age_available rows, a ∈ age_order)
    ∧ (∀ r ∈ resultsRows rows c1 c2 c3 c4 age picks mp d, r.agegroup = age)
    ∧ (age ≠ "Total" → ∀ p ∈ adeDf smr prr drug age, p.agegroup = age) := by
  refine ⟨?_, ?_, ?_⟩
  · intro a ha
    simp only [age_available] at ha
    by_cases he : (age_order.filter
        (fun a => decide (a ∈ rows.map SmrRow.agegroup))).isEmpty = true
    · rw [if_pos he] at ha
      exact ha
    · rw [if_neg he] at ha
      exact List.mem_of_mem_filter ha
  · intro r hr
    simp only [resultsRows, sortSmr] at hr
    rw [mem_sortBy] at hr
    have hr2 : r ∈ (smrFiltered rows c1 c2 c3 c4).filter
        (fun r => decide (r.agegroup = age)) := by
      by_cases hp : picks.isEmpty = true
      · rwa [if_pos hp] at hr
      · rw [if_neg hp] at hr
        exact List.mem_of_mem_filter hr
    exact of_decide_eq_true (List.mem_filter.mp hr2).2
  · intro hage p hp
    simp only [adeDf] at hp
    rw [mem_sortBy] at hp
    rw [if_neg hage] at hp
    exact of_decide_eq_true (List.mem_filter.mp hp).2

/-- Claim C10, witness: the amended theorem at the stratum "0-2", whose
ADE drill-down is restricted to that stratum, plus the stratum list
bound. -/
theorem c10_witness :
    ("0-2" ≠ "Total")
    ∧ (∀ p ∈ adeDf smrMix prrMix "FOO" "0-2", p.agegroup = "0-2")
    ∧ (∀ a ∈ age_available smrMix, a ∈ age_order)
    ∧ (adeDf smrMix prrMix "FOO" "0-2").map PrrRow.agegroup = ["0-2"] := by
  refine ⟨by decide,
    (c10_age_filter smrMix smrMix prrMix "x" "x" "x" "x" "0-2" "FOO" []
      true true).2.2 (by decide),
    (c10_age_filter smrMix smrMix prrMix "x" "x" "x" "x" "0-2" "FOO" []
      true true).1,
    by decide⟩

end StealthMed
